import Mathlib

/-!
Shallow embedding of the two services of the repository
(`pet-store/app/pet_store.py` and `pet-order/app/pet_order.py`) and
verification of the specification claims about them.

The MongoDB collections are embedded as Lean lists of records, with
`find_one` as `List.find?`, `update_one` as an update of the first
matching element, `delete_one` as `List.eraseP`, an insert as an append,
a `$push` as an append to the embedded list and a `$pull` as a filter
removing every matching element.  Python `str.lower` is modelled by `pyLower` (ASCII
case folding, the relevant fragment of Python's Unicode folding) and
Python `str(int)` by an explicit decimal-digit function `pyStr`; both
are written to reduce inside the kernel.
-/

/-- Update the first element satisfying `p` (model of Mongo `update_one`). -/
def updateFirst (p : α → Bool) (f : α → α) : List α → List α
  | [] => []
  | x :: xs => if p x then f x :: xs else x :: updateFirst p f xs

/-- Decimal digits of a natural number, least significant first, with
explicit fuel (first argument) so the definition is structural. -/
def natDigitsRevGo : Nat → Nat → List Char
  | 0, _ => []
  | fuel + 1, n =>
    if n < 10 then [Nat.digitChar n]
    else Nat.digitChar (n % 10) :: natDigitsRevGo fuel (n / 10)

/-- Decimal digits of a natural number, least significant first
(model of the digit loop behind Python `str(int)`). -/
def natDigitsRev (n : Nat) : List Char :=
  natDigitsRevGo (n + 1) n

/-- Model of Python `str` on a natural number: decimal notation. -/
def pyStr (n : Nat) : String :=
  String.mk (natDigitsRev n).reverse

/-- ASCII lower-casing of one character, the fragment of Python
`str.lower` exercised by the services. -/
def pyCharLower (c : Char) : Char :=
  if 65 ≤ c.toNat ∧ c.toNat ≤ 90 then Char.ofNat (c.toNat + 32) else c

/-- Model of Python `str.lower`. -/
def pyLower (s : String) : String :=
  String.mk (s.data.map pyCharLower)

/-- Strip leading and trailing whitespace (model of Python `str.strip`
on the whitespace characters the services can meet). -/
def trimChars (l : List Char) : List Char :=
  ((l.dropWhile Char.isWhitespace).reverse.dropWhile Char.isWhitespace).reverse

/-- After a leading digit, Python `int(...)` accepts further digits
with single underscores allowed only between two digits. -/
def pyIntRest : List Char → Bool
  | [] => true
  | '_' :: rest =>
    match rest with
    | [] => false
    | d :: rest2 => d.isDigit && pyIntRest rest2
  | d :: rest => d.isDigit && pyIntRest rest

/-- Model of Python `int(...)` on a string: optional surrounding
whitespace, an optional sign, then decimal digits with optional
single-underscore grouping (`int("1_2") == 12`); anything else raises
`ValueError` (modelled as `none`).  The ASCII-digit fragment of
Python's parser: non-ASCII Unicode digits are outside the model. -/
def pyInt (s : String) : Option Int :=
  match trimChars s.data with
  | [] => none
  | c :: rest =>
    let (neg, digits) :=
      if c = '-' then (true, rest)
      else if c = '+' then (false, rest)
      else (false, c :: rest)
    match digits with
    | [] => none
    | d :: drest =>
      if d.isDigit && pyIntRest drest then
        let n : Nat := ((d :: drest).filter (fun ch => ch ≠ '_')).foldl
          (fun acc ch => acc * 10 + (ch.toNat - 48)) 0
        some (if neg then -(n : Int) else (n : Int))
      else none

/-- A character the regex engine treats as itself, inside and outside
character classes: letters, digits, space, hyphen, underscore. -/
def regexLiteralChar (c : Char) : Bool :=
  c.isAlphanum || c = ' ' || c = '-' || c = '_'

/-- A string with no regex metacharacters: the anchored case-insensitive
pattern the order service builds from such a value matches exactly the
strings case-insensitively equal to it. -/
def regexLiteral (s : String) : Bool :=
  s.data.all regexLiteralChar

namespace PetStore

/-- A document of the `pet_types` collection (`pet_store.py`): the fields
written by `add_pet_type`, including the denormalized `pets` name list. -/
structure PetType where
  id : String
  type : String
  family : String
  genus : String
  attributes : List String
  lifespan : Option Nat
  pets : List String
deriving Repr, DecidableEq

/-- A document of the `pets` collection (`pet_store.py`), as written by
`add_pet` / `update_pet` (`_picture_url` is kept as `picture_url`). -/
structure Pet where
  pet_type_id : String
  name : String
  name_lower : String
  birthdate : String
  picture : String
  picture_url : Option String
deriving Repr, DecidableEq

/-- The mutable state of one pet-store service: its three collections
(`counters` holds the single `pet_type_id` counter). -/
structure StoreState where
  pet_types : List PetType
  pets : List Pet
  pet_type_counter : Nat
deriving Repr, DecidableEq

/-- `clean_pet` from `pet_store.py`: the response projection of a pet. -/
structure PetClean where
  name : String
  birthdate : String
  picture : String
deriving Repr, DecidableEq

def clean_pet (p : Pet) : PetClean :=
  ⟨p.name, p.birthdate, p.picture⟩

/-- `clean_pet_type` from `pet_store.py`: the response projection of a
pet type (it keeps exactly the listed fields, dropping only the Mongo
internal `_id`, which the embedding does not carry). -/
structure PetTypeClean where
  id : String
  type : String
  family : String
  genus : String
  attributes : List String
  lifespan : Option Nat
  pets : List String
deriving Repr, DecidableEq

def clean_pet_type (t : PetType) : PetTypeClean :=
  ⟨t.id, t.type, t.family, t.genus, t.attributes, t.lifespan, t.pets⟩

/-- `pet_types_collection.find_one({"id": pet_type_id})`. -/
def findPetType (s : StoreState) (tid : String) : Option PetType :=
  s.pet_types.find? (fun t => t.id == tid)

/-- `pets_collection.find_one({"pet_type_id": tid, "name_lower": low})`. -/
def findPetDoc (s : StoreState) (tid low : String) : Option Pet :=
  s.pets.find? (fun p => p.pet_type_id == tid && p.name_lower == low)

/-- Result of a pet-store handler: HTTP status, optional JSON body of
type `β`, and the state of the document store after the request. -/
structure StoreResult (β : Type) where
  status : Nat
  body : Option β
  state : StoreState
deriving Repr

/-- `get_next_pet_type_id` (`pet_store.py` lines 28-35): atomic
find-and-increment of the `pet_type_id` counter, upserting from 0, and
returning `str` of the incremented value. -/
def get_next_pet_type_id (s : StoreState) : StoreState × String :=
  let seq := s.pet_type_counter + 1
  ({ s with pet_type_counter := seq }, pyStr seq)

/-- `GET /pet-types/<pet_type_id>` (`get_pet_type_by_id`). -/
def get_pet_type_by_id (s : StoreState) (tid : String) : StoreResult PetTypeClean :=
  match findPetType s tid with
  | none => ⟨404, none, s⟩
  | some t => ⟨200, some (clean_pet_type t), s⟩

/-- `DELETE /pet-types/<pet_type_id>` (`delete_pet_type`): 404 when the
id is unknown, 400 while the denormalized `pets` list is non-empty
(Python truthiness of the list), otherwise `delete_one` and 204. -/
def delete_pet_type (s : StoreState) (tid : String) : StoreResult Unit :=
  match findPetType s tid with
  | none => ⟨404, none, s⟩
  | some t =>
    if t.pets ≠ [] then ⟨400, none, s⟩
    else ⟨204, none,
      { s with pet_types := s.pet_types.eraseP (fun u => u.id == tid) }⟩

/-- One parameter check of the `get_pet_types` filter loop
(`pet_store.py` lines 125-145): `hasAttribute` is case-insensitive
membership, `lifespan` is `str(field) != val` exact comparison after a
`None` check, the four string keys compare `str(field).lower()` with
`val.lower()`, and any other key is ignored by the loop. -/
def ptypeMatchesParam (t : PetType) (key val : String) : Bool :=
  if key == "hasAttribute" then
    (t.attributes.map pyLower).contains (pyLower val)
  else if key == "lifespan" then
    match t.lifespan with
    | none => false
    | some n => pyStr n == val
  else if key == "id" then pyLower t.id == pyLower val
  else if key == "type" then pyLower t.type == pyLower val
  else if key == "family" then pyLower t.family == pyLower val
  else if key == "genus" then pyLower t.genus == pyLower val
  else true

/-- `GET /pet-types` (`get_pet_types`): with no query parameters all pet
types are returned; otherwise the types passing every parameter check. -/
def get_pet_types (s : StoreState) (params : List (String × String)) :
    StoreResult (List PetTypeClean) :=
  if params = [] then ⟨200, some (s.pet_types.map clean_pet_type), s⟩
  else ⟨200,
    some ((s.pet_types.filter
      (fun t => params.all (fun kv => ptypeMatchesParam t kv.1 kv.2))).map clean_pet_type),
    s⟩

/-- The JSON body accepted by `POST /pet-types/<id>/pets`; `none` on a
field models the key being absent. -/
structure AddPetData where
  name : Option String
  birthdate : Option String
  picture_url : Option String
deriving Repr, DecidableEq

/-- `POST /pet-types/<pet_type_id>/pets` (`add_pet`).  `dl` models
`download_image` (the result of fetching a URL).  The handler checks the
pet type first (404), then the content type (415), then the payload
(400), rejects a name already present case-insensitively in the
denormalized list (400), inserts the pet document and pushes the name
onto the pet type's list.  A `data = none` also covers the falsy empty
JSON object, which takes the same 400 branch. -/
def add_pet (dl : String → Option String) (s : StoreState) (tid : String)
    (contentType : Option String) (data : Option AddPetData) : StoreResult PetClean :=
  match findPetType s tid with
  | none => ⟨404, none, s⟩
  | some t =>
    if contentType ≠ some "application/json" then ⟨415, none, s⟩
    else
      match data with
      | none => ⟨400, none, s⟩
      | some d =>
        match d.name with
        | none => ⟨400, none, s⟩
        | some name =>
          -- `data.get("birthdate") or "NA"`: empty string is falsy
          let birthdate :=
            match d.birthdate with
            | none => "NA"
            | some b => if b = "" then "NA" else b
          if t.pets.any (fun n => pyLower n == pyLower name) then ⟨400, none, s⟩
          else
            -- `if pic_url:` — an absent or empty URL skips the download
            let picture :=
              match d.picture_url with
              | none => "NA"
              | some u =>
                if u = "" then "NA"
                else match dl u with
                  | some f => f
                  | none => "NA"
            let pet_obj : Pet := ⟨tid, name, pyLower name, birthdate, picture, d.picture_url⟩
            ⟨201, some (clean_pet pet_obj),
              { s with
                pets := s.pets ++ [pet_obj],
                pet_types := updateFirst (fun u => u.id == tid)
                  (fun u => { u with pets := u.pets ++ [name] }) s.pet_types }⟩

/-- Leap-year rule used by the Gregorian-calendar validation of Python
`datetime.strptime`. -/
def isLeapYear (y : Nat) : Bool :=
  y % 4 == 0 && (y % 100 != 0 || y % 400 == 0)

/-- Number of days of month `m` of year `y`. -/
def daysInMonth (y m : Nat) : Nat :=
  if m == 2 then (if isLeapYear y then 29 else 28)
  else if m == 4 || m == 6 || m == 9 || m == 11 then 30
  else 31

/-- `parse_date` (`pet_store.py` lines 47-51): `strptime` of the
stripped string against `%d-%m-%Y`, yielding `(year, month, day)` for a
valid calendar date and `none` otherwise. -/
def parse_date (s : String) : Option (Nat × Nat × Nat) :=
  match (String.mk (trimChars s.data)).splitOn "-" with
  | [ds, ms, ys] =>
    if ds.length ≥ 1 && ds.length ≤ 2 && ds.data.all Char.isDigit &&
       ms.length ≥ 1 && ms.length ≤ 2 && ms.data.all Char.isDigit &&
       ys.length ≥ 1 && ys.length ≤ 4 && ys.data.all Char.isDigit then
      match ds.toNat?, ms.toNat?, ys.toNat? with
      | some d, some m, some y =>
        if 1 ≤ m && m ≤ 12 && 1 ≤ d && d ≤ daysInMonth y m then some (y, m, d)
        else none
      | _, _, _ => none
    else none
  | _ => none

/-- `datetime` comparison: lexicographic on (year, month, day). -/
def dateLT (a b : Nat × Nat × Nat) : Bool :=
  a.1 < b.1 || (a.1 == b.1 && (a.2.1 < b.2.1 || (a.2.1 == b.2.1 && a.2.2 < b.2.2)))

/-- `GET /pet-types/<pet_type_id>/pets` (`get_pets`): 404 on an unknown
type; with no parameters all pets of the type (cleaned); otherwise the
`birthdateGT` / `birthdateLT` filter (an empty parameter value is falsy
and behaves as an absent one, a malformed date answers 400, pets with
`NA` or unparsable birthdates are dropped, and the bounds are strict). -/
def get_pets (s : StoreState) (tid : String) (params : List (String × String)) :
    StoreResult (List PetClean) :=
  match findPetType s tid with
  | none => ⟨404, none, s⟩
  | some _ =>
    let allClean := (s.pets.filter (fun p => p.pet_type_id == tid)).map clean_pet
    if params = [] then ⟨200, some allClean, s⟩
    else
      let gtv := ((params.find? (fun kv => kv.1 == "birthdateGT")).map
        (fun kv => kv.2)).getD ""
      let ltv := ((params.find? (fun kv => kv.1 == "birthdateLT")).map
        (fun kv => kv.2)).getD ""
      let date_gt := if gtv ≠ "" then parse_date gtv else none
      if gtv ≠ "" ∧ date_gt = none then ⟨400, none, s⟩
      else
        let date_lt := if ltv ≠ "" then parse_date ltv else none
        if ltv ≠ "" ∧ date_lt = none then ⟨400, none, s⟩
        else
          ⟨200, some (allClean.filter (fun p =>
            if p.birthdate == "NA" then false
            else match parse_date p.birthdate with
              | none => false
              | some actual =>
                (match date_gt with | some dg => dateLT dg actual | none => true) &&
                (match date_lt with | some dl => dateLT actual dl | none => true))), s⟩

/-- `GET /pet-types/<pet_type_id>/pets/<name>` (`get_pet_by_name`):
the pet is looked up by `name_lower == name.lower()`. -/
def get_pet_by_name (s : StoreState) (tid name : String) : StoreResult PetClean :=
  match findPetType s tid with
  | none => ⟨404, none, s⟩
  | some _ =>
    match findPetDoc s tid (pyLower name) with
    | none => ⟨404, none, s⟩
    | some pet => ⟨200, some (clean_pet pet), s⟩

/-- The JSON body accepted by `PUT /pet-types/<id>/pets/<name>`. -/
structure UpdatePetData where
  name : Option String
  birthdate : Option String
  picture_url : Option String
deriving Repr, DecidableEq

/-- The `update_fields` document built by `update_pet` for the pet `pet`
being renamed to `new_name`: picture handling follows the three branches
on `picture-url` (absent resets to NA; unchanged URL keeps the file; a
new URL is downloaded), and an absent birthdate becomes `"NA"`. -/
def update_fields_of (dl : String → Option String) (tid : String) (pet : Pet)
    (d : UpdatePetData) (new_name : String) : Pet :=
  let pic :=
    match d.picture_url with
    | none => "NA"
    | some new_url =>
      if some new_url = pet.picture_url then pet.picture
      else match dl new_url with
        | some f => f
        | none => "NA"
  ⟨tid, new_name, pyLower new_name,
    (match d.birthdate with | none => "NA" | some b => b),
    pic, d.picture_url⟩

/-- `PUT /pet-types/<pet_type_id>/pets/<name>` (`update_pet`): 404 on
unknown type, 415 on wrong content type, 400 on missing payload name,
404 on unknown pet (lookup by `name_lower`); then `update_one` replaces
the first matching pet document with the new fields, and only when the
new name differs case-insensitively from the old one the pet type's list
gets a case-insensitive `$pull` of the old name and a `$push` of the new
name.  The handler re-reads the pet by the new lowercase name for the
response; were that lookup to fail, `clean_pet(None)` would raise and the
surrounding `except` would answer 500. -/
def update_pet (dl : String → Option String) (s : StoreState) (tid name : String)
    (contentType : Option String) (data : Option UpdatePetData) : StoreResult PetClean :=
  match findPetType s tid with
  | none => ⟨404, none, s⟩
  | some _ =>
    if contentType ≠ some "application/json" then ⟨415, none, s⟩
    else
      match data with
      | none => ⟨400, none, s⟩
      | some d =>
        match d.name with
        | none => ⟨400, none, s⟩
        | some new_name =>
          match findPetDoc s tid (pyLower name) with
          | none => ⟨404, none, s⟩
          | some pet =>
            let upd := update_fields_of dl tid pet d new_name
            let pets' := updateFirst
              (fun p => p.pet_type_id == tid && p.name_lower == pyLower name)
              (fun _ => upd) s.pets
            let pet_types' :=
              if pyLower new_name ≠ pyLower name then
                updateFirst (fun u => u.id == tid)
                  (fun u => { u with pets :=
                    (u.pets.filter (fun n => pyLower n ≠ pyLower name)) ++ [new_name] })
                  s.pet_types
              else s.pet_types
            let s' : StoreState := { s with pets := pets', pet_types := pet_types' }
            match s'.pets.find?
                (fun p => p.pet_type_id == tid && p.name_lower == pyLower new_name) with
            | some up => ⟨200, some (clean_pet up), s'⟩
            | none => ⟨500, none, s'⟩

/-- `DELETE /pet-types/<pet_type_id>/pets/<name>` (`delete_pet`): 404 on
unknown type or pet; otherwise `delete_one` removes the first pet
document matching the lowercase name and a `$pull` removes every list
entry exactly equal to the document's stored `name`. -/
def delete_pet (s : StoreState) (tid name : String) : StoreResult Unit :=
  match findPetType s tid with
  | none => ⟨404, none, s⟩
  | some _ =>
    match findPetDoc s tid (pyLower name) with
    | none => ⟨404, none, s⟩
    | some pet =>
      ⟨204, none,
        { s with
          pets := s.pets.eraseP
            (fun p => p.pet_type_id == tid && p.name_lower == pyLower name),
          pet_types := updateFirst (fun u => u.id == tid)
            (fun u => { u with pets := u.pets.filter (fun n => n ≠ pet.name) })
            s.pet_types }⟩

end PetStore

namespace PetOrder

/-- The static owner token of `pet_order.py`. -/
def OWNER_PASSWORD : String := "LovesPetsL2M3n4"

/-- A document of the `transactions` collection. -/
structure Transaction where
  purchaser : String
  pet_type : String
  store : Int
  purchase_id : String
deriving Repr, DecidableEq

/-- The mutable state of the order service: the `transactions`
collection and the `purchase_id` counter. -/
structure OrderState where
  transactions : List Transaction
  purchase_counter : Nat
deriving Repr, DecidableEq

/-- `get_next_purchase_id` (`pet_order.py` lines 19-26): atomic
find-and-increment of the `purchase_id` counter, upserting from 0, and
returning `str` of the incremented value. -/
def get_next_purchase_id (o : OrderState) : OrderState × String :=
  let seq := o.purchase_counter + 1
  ({ o with purchase_counter := seq }, pyStr seq)

/-- One outbound HTTP call or document-store write of the order service,
recorded so that claims about call counts and ordering can be stated. -/
inductive Effect where
  | queryPetTypes (store : Nat)
  | queryPets (store : Nat) (ptid : String)
  | deletePetCall (store : Nat) (ptid : String) (name : String)
  | nextPurchaseId
  | insertTransaction (t : Transaction)
deriving Repr, DecidableEq

/-- The environment the order service talks to: the responses of the two
pet-store instances, keyed by store number (1 or 2).  `none` models a
non-200 response or a network exception. -/
structure OrderEnv where
  petTypesResp : Nat → Option (List PetStore.PetTypeClean)
  petsResp : Nat → String → Option (List PetStore.PetClean)
  deleteOk : Nat → String → String → Bool

/-- `find_pet_type_id`: one `GET {store}/pet-types`, then the id of the
first listed type whose name matches case-insensitively. -/
def find_pet_type_id (env : OrderEnv) (store : Nat) (pet_type_name : String) :
    Option String × List Effect :=
  let effs := [Effect.queryPetTypes store]
  match env.petTypesResp store with
  | none => (none, effs)
  | some pts =>
    match pts.find? (fun pt => pyLower pt.type == pyLower pet_type_name) with
    | some pt => (some pt.id, effs)
    | none => (none, effs)

/-- `get_pets_of_type`: one `GET {store}/pet-types/{id}/pets`; a failure
or non-200 status yields the empty list. -/
def get_pets_of_type (env : OrderEnv) (store : Nat) (ptid : String) :
    List PetStore.PetClean × List Effect :=
  (match env.petsResp store ptid with
    | none => []
    | some ps => ps,
   [Effect.queryPets store ptid])

/-- `delete_pet` of `pet_order.py`: one outbound DELETE call, true iff
the store answered 204. -/
def delete_pet_remote (env : OrderEnv) (store : Nat) (ptid name : String) :
    Bool × List Effect :=
  (env.deleteOk store ptid name, [Effect.deletePetCall store ptid name])

/-- The `for store_num, store_url in stores_to_check` loop of
`find_available_pet`: per store it looks the pet-type id up (skipping
falsy ids), fetches that type's pets (skipping empty lists), and either
returns early on a requested pet name or accumulates every pet as
available.  The result is (early return, accumulated pets, effects). -/
def find_available_pet_loop (env : OrderEnv) (pet_type_name : String)
    (pet_name : Option String) :
    List Nat → List (Nat × String × String) →
    Option (Nat × String × String) × List (Nat × String × String) × List Effect
  | [], acc => (none, acc, [])
  | store_num :: rest, acc =>
    let (ptid?, e1) := find_pet_type_id env store_num pet_type_name
    match ptid? with
    | none =>
      let (r, a, e) := find_available_pet_loop env pet_type_name pet_name rest acc
      (r, a, e1 ++ e)
    | some ptid =>
      -- `if not pet_type_id:` — the empty string is falsy too
      if ptid = "" then
        let (r, a, e) := find_available_pet_loop env pet_type_name pet_name rest acc
        (r, a, e1 ++ e)
      else
        let (pets, e2) := get_pets_of_type env store_num ptid
        if pets = [] then
          let (r, a, e) := find_available_pet_loop env pet_type_name pet_name rest acc
          (r, a, e1 ++ e2 ++ e)
        else
          match pet_name with
          | some pn =>
            match pets.find? (fun p => pyLower p.name == pyLower pn) with
            | some p => (some (store_num, ptid, p.name), acc, e1 ++ e2)
            | none =>
              let (r, a, e) := find_available_pet_loop env pet_type_name pet_name rest acc
              (r, a, e1 ++ e2 ++ e)
          | none =>
            let acc' := acc ++ pets.map (fun p => (store_num, ptid, p.name))
            let (r, a, e) := find_available_pet_loop env pet_type_name pet_name rest acc'
            (r, a, e1 ++ e2 ++ e)

/-- `find_available_pet` (`pet_order.py` lines 70-113).  A requested
store restricts the scan to that store; otherwise stores 1 and 2 are
scanned in that order.  `choiceIx` resolves the `random.choice` among
the accumulated available pets. -/
def find_available_pet (env : OrderEnv) (pet_type_name : String)
    (store : Option Nat) (pet_name : Option String) (choiceIx : Nat) :
    Option (Nat × String × String) × List Effect :=
  let stores := match store with
    | some sn => [sn]
    | none => [1, 2]
  let (early, avail, effs) := find_available_pet_loop env pet_type_name pet_name stores []
  match early with
  | some r => (some r, effs)
  | none =>
    if pet_name.isSome then (none, effs)
    else
      match avail with
      | [] => (none, effs)
      | x :: xs => (some ((x :: xs).getD (choiceIx % (x :: xs).length) x), effs)

/-- The JSON body of `POST /purchases`; `extra` records whether any key
outside the four allowed ones is present. -/
structure PurchaseData where
  purchaser : Option String
  pet_type : Option String
  store : Option Int
  pet_name : Option String
  extra : Bool
deriving Repr, DecidableEq

/-- The 201 response body of `create_purchase`. -/
structure Purchase where
  purchaser : String
  pet_type : String
  store : Nat
  pet_name : String
  purchase_id : String
deriving Repr, DecidableEq

/-- Result of `create_purchase`: status, optional purchase body, state
after the request, and the recorded outbound/store effects. -/
structure OrderResult where
  status : Nat
  purchase : Option Purchase
  state : OrderState
  effects : List Effect
deriving Repr

/-- `POST /purchases` (`create_purchase`): content-type check (415),
payload validation (400 for a missing body — the falsy empty object is
covered by `data = none` — missing required fields, extra fields, a
store outside 1-2, or a pet name given without a store), then one
`find_available_pet` scan, one outbound deletion of the chosen pet (400
if it fails), and finally one counter increment and one transaction
insert with a 201. -/
def create_purchase (env : OrderEnv) (o : OrderState) (contentType : Option String)
    (data : Option PurchaseData) (choiceIx : Nat) : OrderResult :=
  if contentType ≠ some "application/json" then ⟨415, none, o, []⟩
  else
    match data with
    | none => ⟨400, none, o, []⟩
    | some d =>
      match d.purchaser, d.pet_type with
      | some purchaser, some pet_type =>
        if d.extra then ⟨400, none, o, []⟩
        else if d.store ≠ none ∧ d.store ≠ some 1 ∧ d.store ≠ some 2 then
          ⟨400, none, o, []⟩
        else if d.pet_name ≠ none ∧ d.store = none then ⟨400, none, o, []⟩
        else
          let storeN : Option Nat := d.store.map Int.toNat
          let (result, effs) := find_available_pet env pet_type storeN d.pet_name choiceIx
          match result with
          | none => ⟨400, none, o, effs⟩
          | some (chosen_store, ptid, chosen_name) =>
            let (ok, e2) := delete_pet_remote env chosen_store ptid chosen_name
            if !ok then ⟨400, none, o, effs ++ e2⟩
            else
              let (o1, pid) := get_next_purchase_id o
              let tx : Transaction := ⟨purchaser, pet_type, (chosen_store : Int), pid⟩
              ⟨201, some ⟨purchaser, pet_type, chosen_store, chosen_name, pid⟩,
                { o1 with transactions := o1.transactions ++ [tx] },
                effs ++ e2 ++ [Effect.nextPurchaseId, Effect.insertTransaction tx]⟩
      | _, _ => ⟨400, none, o, []⟩

/-- The Mongo query `get_transactions` builds from its parameters. -/
structure TxQuery where
  store : Option Int
  purchaser : Option String
  pet_type_ci : Option String
  purchase_id : Option String
deriving Repr, DecidableEq

/-- Whether a transaction document matches the built query: `store` by
numeric equality, `purchaser` and `purchase-id` exactly, `pet-type` by
the case-insensitive anchored `$regex` built from the raw, unescaped
value (pet_order.py line 207).  The regex is modelled as
case-insensitive string equality, which is the pattern's meaning
exactly when the value holds no regex metacharacters (`regexLiteral`);
the theorem that uses this matcher restricts `pet-type` values to that
fragment, since for other values the code diverges (an unescaped `.*`
matches every transaction, an invalid pattern such as `(` raises). -/
def txMatches (q : TxQuery) (t : Transaction) : Bool :=
  (match q.store with | none => true | some v => t.store == v) &&
  (match q.purchaser with | none => true | some v => t.purchaser == v) &&
  (match q.pet_type_ci with | none => true | some v => pyLower t.pet_type == pyLower v) &&
  (match q.purchase_id with | none => true | some v => t.purchase_id == v)

/-- The query-building loop of `get_transactions`, one parameter at a
time: unknown keys are ignored; `int(val)` on the `store` value raises
on a malformed string, modelled as `none` aborting the build. -/
def buildQueryGo : TxQuery → List (String × String) → Option TxQuery
  | q, [] => some q
  | q, kv :: rest =>
    if kv.1 = "store" then
      match pyInt kv.2 with
      | none => none
      | some n => buildQueryGo { q with store := some n } rest
    else if kv.1 = "purchaser" then buildQueryGo { q with purchaser := some kv.2 } rest
    else if kv.1 = "pet-type" then buildQueryGo { q with pet_type_ci := some kv.2 } rest
    else if kv.1 = "purchase-id" then buildQueryGo { q with purchase_id := some kv.2 } rest
    else buildQueryGo q rest

/-- The Mongo query built from all parameters, starting empty. -/
def buildQuery (params : List (String × String)) : Option TxQuery :=
  buildQueryGo ⟨none, none, none, none⟩ params

/-- `GET /transactions` (`get_transactions`): 401 unless the `OwnerPC`
header equals the owner token; then the filtered transactions with
status 200 (the response projection keeps exactly the four stored
fields, so it is the identity here).  An unparsable `store` parameter
raises an uncaught `ValueError`, which the framework reports as a 500. -/
def get_transactions (o : OrderState) (ownerPC : Option String)
    (params : List (String × String)) : Nat × Option (List Transaction) :=
  if ownerPC ≠ some OWNER_PASSWORD then (401, none)
  else
    match buildQuery params with
    | none => (500, none)
    | some q => (200, some (o.transactions.filter (txMatches q)))

end PetOrder

namespace PetStore

/-- The spec's mirror invariant: for every pet type, the denormalized
`pets` name list equals, as a set of strings, the set of `name` fields
of the `pets`-collection documents holding that `pet_type_id`. -/
def mirrorInv (s : StoreState) : Bool :=
  s.pet_types.all fun t =>
    let docNames := (s.pets.filter (fun p => p.pet_type_id == t.id)).map Pet.name
    t.pets.all (fun n => docNames.contains n) && docNames.all (fun n => t.pets.contains n)

/-- No two of the given pet documents belong to the same pet type while
having case-insensitively equal names. -/
def pairwiseDistinctCI : List Pet → Bool
  | [] => true
  | p :: ps =>
    ps.all (fun q => !(q.pet_type_id == p.pet_type_id && pyLower q.name == pyLower p.name))
      && pairwiseDistinctCI ps

/-- The spec's uniqueness invariant: within each pet type no two pets
have case-insensitively equal names. -/
def uniquePetNames (s : StoreState) : Bool :=
  pairwiseDistinctCI s.pets

/-- An environment in which no image download succeeds. -/
def dlNone : String → Option String := fun _ => none

/-- A store holding one pet type (id "1") with a single pet "Rex",
lists and documents in sync. -/
def caseRenameState : StoreState :=
  ⟨[⟨"1", "dog", "Canidae", "Canis", [], none, ["Rex"]⟩],
   [⟨"1", "Rex", "rex", "NA", "NA", none⟩], 1⟩

/-- A store holding one pet type (id "1") with two pets "Rex" and
"Bella", lists and documents in sync. -/
def dupRenameState : StoreState :=
  ⟨[⟨"1", "dog", "Canidae", "Canis", [], none, ["Rex", "Bella"]⟩],
   [⟨"1", "Rex", "rex", "NA", "NA", none⟩,
    ⟨"1", "Bella", "bella", "NA", "NA", none⟩], 2⟩

/-- The state of the store after `n` calls of `get_next_pet_type_id`. -/
def storeStateAfter (s : StoreState) : Nat → StoreState
  | 0 => s
  | n + 1 => (get_next_pet_type_id (storeStateAfter s n)).1

/-- The id string returned by call number `n` (0-indexed) of
`get_next_pet_type_id`. -/
def storeIdAt (s : StoreState) (n : Nat) : String :=
  (get_next_pet_type_id (storeStateAfter s n)).2

/-- The matching semantics of one `GET /pet-types` query parameter as
the claim states it: `id`, `type`, `family`, `genus` compared
case-insensitively as strings, `hasAttribute` demanding case-insensitive
membership of the value in the attribute list, and `lifespan` compared
by exact string equality of its stored value, never matching a null
lifespan.  Stated independently of the handler, to be compared with it. -/
def specParamMatch (t : PetType) (key val : String) : Bool :=
  if key == "id" then pyLower t.id == pyLower val
  else if key == "type" then pyLower t.type == pyLower val
  else if key == "family" then pyLower t.family == pyLower val
  else if key == "genus" then pyLower t.genus == pyLower val
  else if key == "hasAttribute" then t.attributes.any (fun a => pyLower a == pyLower val)
  else if key == "lifespan" then
    match t.lifespan with
    | none => false
    | some n => pyStr n == val
  else true

/-- A store with two pet types: id "7" with no pets, id "8" with one. -/
def twoTypesState : StoreState :=
  ⟨[⟨"7", "cat", "Felidae", "Felis", [], none, []⟩,
    ⟨"8", "dog", "Canidae", "Canis", [], none, ["Rex"]⟩],
   [⟨"8", "Rex", "rex", "NA", "NA", none⟩], 2⟩

end PetStore

namespace PetOrder

/-- The state of the order service after `n` calls of
`get_next_purchase_id`. -/
def orderStateAfter (o : OrderState) : Nat → OrderState
  | 0 => o
  | n + 1 => (get_next_purchase_id (orderStateAfter o n)).1

/-- The id string returned by call number `n` (0-indexed) of
`get_next_purchase_id`. -/
def orderIdAt (o : OrderState) (n : Nat) : String :=
  (get_next_purchase_id (orderStateAfter o n)).2

/-- An order service with no transactions and a fresh counter. -/
def emptyOrderState : OrderState :=
  ⟨[], 0⟩

/-- An order service holding two past transactions. -/
def twoTxState : OrderState :=
  ⟨[⟨"alice", "dog", 1, "1"⟩, ⟨"bob", "cat", 2, "2"⟩], 2⟩

/-- An environment in which both stores are unreachable. -/
def envNone : OrderEnv :=
  ⟨fun _ => none, fun _ _ => none, fun _ _ _ => false⟩

/-- A well-formed purchase body naming no store and no pet. -/
def reqNoStore : PurchaseData :=
  ⟨some "alice", some "dog", none, none, false⟩

/-- The store number of a `GET /pet-types` query effect. -/
def Effect.queryStore? : Effect → Option Nat
  | .queryPetTypes n => some n
  | _ => none

/-- The store number an outbound HTTP effect goes to, if any. -/
def Effect.httpStore? : Effect → Option Nat
  | .queryPetTypes n => some n
  | .queryPets n _ => some n
  | .deletePetCall n _ _ => some n
  | _ => none

/-- Whether an effect is the outbound pet-deletion call. -/
def Effect.isDelete : Effect → Bool
  | .deletePetCall _ _ _ => true
  | _ => false

/-- Whether an effect is the transaction insert. -/
def Effect.isInsert : Effect → Bool
  | .insertTransaction _ => true
  | _ => false

end PetOrder

open PetStore PetOrder

/-- C1: the denormalized-list mirror invariant is not preserved by
`PUT /pet-types/1/pets/Rex` with body name "REX": the handler answers
200 and renames the document to "REX", but — the new name being equal
to the old one case-insensitively — skips the pet-type list update, so
the list still reads ["Rex"] while the collection holds "REX". -/
theorem C1_mirror_broken_by_case_rename :
    mirrorInv caseRenameState = true ∧
    (update_pet dlNone caseRenameState "1" "Rex" (some "application/json")
        (some ⟨some "REX", none, none⟩)).status = 200 ∧
    mirrorInv (update_pet dlNone caseRenameState "1" "Rex" (some "application/json")
        (some ⟨some "REX", none, none⟩)).state = false ∧
    (update_pet dlNone caseRenameState "1" "Rex" (some "application/json")
        (some ⟨some "REX", none, none⟩)).state.pets.map Pet.name = ["REX"] ∧
    (update_pet dlNone caseRenameState "1" "Rex" (some "application/json")
        (some ⟨some "REX", none, none⟩)).state.pet_types.map PetType.pets = [["Rex"]] := by
  decide

/-- C2: case-insensitive name uniqueness within a pet type is not
preserved by `PUT /pet-types/1/pets/Rex` with body name "Bella" in a
state that already holds a pet "Bella" of type "1": the handler has no
duplicate check on rename, answers 200, and leaves two pets named
"Bella" under pet type "1". -/
theorem C2_uniqueness_broken_by_rename :
    uniquePetNames dupRenameState = true ∧
    (update_pet dlNone dupRenameState "1" "Rex" (some "application/json")
        (some ⟨some "Bella", none, none⟩)).status = 200 ∧
    uniquePetNames (update_pet dlNone dupRenameState "1" "Rex" (some "application/json")
        (some ⟨some "Bella", none, none⟩)).state = false ∧
    (update_pet dlNone dupRenameState "1" "Rex" (some "application/json")
        (some ⟨some "Bella", none, none⟩)).state.pets.map Pet.name = ["Bella", "Bella"] := by
  decide

/-- C4: `DELETE /pet-types/{id}` on a stored pet type answers 400 and
leaves the state untouched while the type's `pets` list is non-empty,
and otherwise removes that pet type (the first document carrying the
id) and answers 204, leaving the pets collection and the counter
alone. -/
theorem C4_delete_pet_type_contract (s : StoreState) (tid : String) (t : PetType)
    (h : findPetType s tid = some t) :
    (t.pets ≠ [] → delete_pet_type s tid = ⟨400, none, s⟩) ∧
    (t.pets = [] →
      (delete_pet_type s tid).status = 204 ∧
      (delete_pet_type s tid).state.pet_types = s.pet_types.eraseP (fun u => u.id == tid) ∧
      (delete_pet_type s tid).state.pets = s.pets ∧
      (delete_pet_type s tid).state.pet_type_counter = s.pet_type_counter) := by
  constructor
  · intro hne
    simp [delete_pet_type, h, hne]
  · intro he
    simp [delete_pet_type, h, he]

/-- C4 witness: in `twoTypesState`, deleting type "7" (no pets)
succeeds with 204 and removes it; deleting type "8" (one pet) is
rejected with 400 and changes nothing. -/
theorem C4_delete_pet_type_witness :
    (delete_pet_type twoTypesState "7").status = 204 ∧
    (delete_pet_type twoTypesState "7").state.pet_types =
      twoTypesState.pet_types.eraseP (fun u => u.id == "7") ∧
    (delete_pet_type twoTypesState "7").state.pets = twoTypesState.pets ∧
    (delete_pet_type twoTypesState "7").state.pet_type_counter =
      twoTypesState.pet_type_counter ∧
    delete_pet_type twoTypesState "8" = ⟨400, none, twoTypesState⟩ := by
  refine ⟨?_, ?_, ?_, ?_, ?_⟩
  · exact ((C4_delete_pet_type_contract twoTypesState "7"
      ⟨"7", "cat", "Felidae", "Felis", [], none, []⟩ (by decide)).2 rfl).1
  · exact ((C4_delete_pet_type_contract twoTypesState "7"
      ⟨"7", "cat", "Felidae", "Felis", [], none, []⟩ (by decide)).2 rfl).2.1
  · exact ((C4_delete_pet_type_contract twoTypesState "7"
      ⟨"7", "cat", "Felidae", "Felis", [], none, []⟩ (by decide)).2 rfl).2.2.1
  · exact ((C4_delete_pet_type_contract twoTypesState "7"
      ⟨"7", "cat", "Felidae", "Felis", [], none, []⟩ (by decide)).2 rfl).2.2.2
  · exact (C4_delete_pet_type_contract twoTypesState "8"
      ⟨"8", "dog", "Canidae", "Canis", [], none, ["Rex"]⟩ (by decide)).1 (by decide)

/-- C7: when no stored pet type carries the requested id, every routed
handler under `/pet-types/{id}` — GET of the type, GET and POST of its
pets, and GET, PUT, DELETE of an individual pet — answers 404 and
leaves the state untouched. -/
theorem C7_missing_id_404 (s : StoreState) (tid : String)
    (h : ∀ t ∈ s.pet_types, t.id ≠ tid) :
    get_pet_type_by_id s tid = ⟨404, none, s⟩ ∧
    (∀ params, get_pets s tid params = ⟨404, none, s⟩) ∧
    (∀ dl ct data, add_pet dl s tid ct data = ⟨404, none, s⟩) ∧
    (∀ name, get_pet_by_name s tid name = ⟨404, none, s⟩) ∧
    (∀ dl name ct data, update_pet dl s tid name ct data = ⟨404, none, s⟩) ∧
    (∀ name, delete_pet s tid name = ⟨404, none, s⟩) := by
  have hf : findPetType s tid = none := by
    unfold findPetType
    rw [List.find?_eq_none]
    intro t ht
    simpa using h t ht
  refine ⟨?_, ?_, ?_, ?_, ?_, ?_⟩ <;> intros <;>
    simp [get_pet_type_by_id, get_pets, add_pet, get_pet_by_name, update_pet,
      delete_pet, hf]

/-- C7 witness: id "99" is not stored in `caseRenameState`; the six
handlers all answer 404 there. -/
theorem C7_missing_id_404_witness :
    get_pet_type_by_id caseRenameState "99" = ⟨404, none, caseRenameState⟩ ∧
    get_pets caseRenameState "99" [] = ⟨404, none, caseRenameState⟩ ∧
    add_pet dlNone caseRenameState "99" (some "application/json") none =
      ⟨404, none, caseRenameState⟩ ∧
    get_pet_by_name caseRenameState "99" "Rex" = ⟨404, none, caseRenameState⟩ ∧
    update_pet dlNone caseRenameState "99" "Rex" (some "application/json") none =
      ⟨404, none, caseRenameState⟩ ∧
    delete_pet caseRenameState "99" "Rex" = ⟨404, none, caseRenameState⟩ := by
  obtain ⟨h1, h2, h3, h4, h5, h6⟩ := C7_missing_id_404 caseRenameState "99" (by decide)
  exact ⟨h1, h2 [], h3 dlNone (some "application/json") none, h4 "Rex",
    h5 dlNone "Rex" (some "application/json") none, h6 "Rex"⟩

/-- `Nat.digitChar` is injective on single digits. -/
theorem digitChar_inj_lt_ten (a b : Nat) (ha : a < 10) (hb : b < 10)
    (h : Nat.digitChar a = Nat.digitChar b) : a = b := by
  have : ∀ x y : Fin 10, Nat.digitChar x.val = Nat.digitChar y.val → x = y := by decide
  have := this ⟨a, ha⟩ ⟨b, hb⟩ h
  exact congrArg Fin.val this

/-- The fuel argument of `natDigitsRevGo` is irrelevant once it exceeds
the number. -/
theorem natDigitsRevGo_fuel (f₁ : Nat) : ∀ f₂ n, n < f₁ → n < f₂ →
    natDigitsRevGo f₁ n = natDigitsRevGo f₂ n := by
  induction f₁ with
  | zero => intro f₂ n h₁ _; omega
  | succ f ih =>
    intro f₂ n h₁ h₂
    match f₂, h₂ with
    | g + 1, _ =>
      show natDigitsRevGo (f + 1) n = natDigitsRevGo (g + 1) n
      unfold natDigitsRevGo
      by_cases hn : n < 10
      · simp [hn]
      · simp only [if_neg hn]
        have hd : n / 10 < n := Nat.div_lt_self (by omega) (by omega)
        rw [ih (g) (n / 10) (by omega) (by omega)]

/-- Unfolding `natDigitsRev` on a number of at least two digits. -/
theorem natDigitsRev_large {n : Nat} (h : ¬ n < 10) :
    natDigitsRev n = Nat.digitChar (n % 10) :: natDigitsRev (n / 10) := by
  have hd : n / 10 < n := Nat.div_lt_self (by omega) (by omega)
  show natDigitsRevGo (n + 1) n = _
  unfold natDigitsRevGo
  simp only [if_neg h]
  rw [natDigitsRevGo_fuel n (n / 10 + 1) (n / 10) (by omega) (by omega)]
  rfl

/-- `natDigitsRev` never returns the empty list. -/
theorem natDigitsRev_ne_nil (n : Nat) : natDigitsRev n ≠ [] := by
  by_cases h : n < 10
  · show natDigitsRevGo (n + 1) n ≠ []
    unfold natDigitsRevGo
    simp [h]
  · rw [natDigitsRev_large h]
    simp

/-- The decimal-digit list determines the number. -/
theorem natDigitsRev_inj : ∀ a b : Nat, natDigitsRev a = natDigitsRev b → a = b := by
  intro a
  induction a using Nat.strong_induction_on with
  | _ a ih =>
    intro b h
    by_cases ha : a < 10 <;> by_cases hb : b < 10
    · have h' : natDigitsRevGo (a + 1) a = natDigitsRevGo (b + 1) b := h
      unfold natDigitsRevGo at h'
      simp only [if_pos ha, if_pos hb, List.cons.injEq] at h'
      exact digitChar_inj_lt_ten a b ha hb h'.1
    · exfalso
      have h' : natDigitsRevGo (a + 1) a = _ := h
      unfold natDigitsRevGo at h'
      rw [if_pos ha, natDigitsRev_large hb] at h'
      have := congrArg List.tail h'
      simp at this
      exact natDigitsRev_ne_nil (b / 10) this
    · exfalso
      have h' : _ = natDigitsRevGo (b + 1) b := h
      unfold natDigitsRevGo at h'
      rw [if_pos hb, natDigitsRev_large ha] at h'
      have := congrArg List.tail h'
      simp at this
      exact natDigitsRev_ne_nil (a / 10) this
    · rw [natDigitsRev_large ha, natDigitsRev_large hb] at h
      have h1 := (List.cons.injEq _ _ _ _).mp h
      have hm : a % 10 = b % 10 :=
        digitChar_inj_lt_ten _ _ (Nat.mod_lt _ (by omega)) (Nat.mod_lt _ (by omega)) h1.1
      have hdiv : a / 10 = b / 10 :=
        ih (a / 10) (Nat.div_lt_self (by omega) (by omega)) (b / 10) h1.2
      omega

/-- The decimal string of a natural number determines it: `pyStr` is
injective. -/
theorem pyStr_inj {a b : Nat} (h : pyStr a = pyStr b) : a = b := by
  unfold pyStr at h
  have hlist : (natDigitsRev a).reverse = (natDigitsRev b).reverse :=
    congrArg String.data h
  exact natDigitsRev_inj a b (List.reverse_injective hlist)

/-- After `n` calls the pet-type counter has grown by exactly `n`. -/
theorem storeStateAfter_counter (s : StoreState) (n : Nat) :
    (storeStateAfter s n).pet_type_counter = s.pet_type_counter + n := by
  induction n with
  | zero => rfl
  | succ k ih =>
    show (get_next_pet_type_id (storeStateAfter s k)).1.pet_type_counter = _
    simp [get_next_pet_type_id, ih]
    omega

/-- After `n` calls the purchase counter has grown by exactly `n`. -/
theorem orderStateAfter_counter (o : OrderState) (n : Nat) :
    (orderStateAfter o n).purchase_counter = o.purchase_counter + n := by
  induction n with
  | zero => rfl
  | succ k ih =>
    show (get_next_purchase_id (orderStateAfter o k)).1.purchase_counter = _
    simp [get_next_purchase_id, ih]
    omega

/-- C5: both ID generators return, at call number `n` (0-indexed), the
decimal string of the counter value `initial + n + 1`; across any two
calls `i < j` of the same generator the underlying counter values are
strictly increasing and the returned id strings differ, so generated
ids never repeat. -/
theorem C5_id_generators_monotonic (s : StoreState) (o : OrderState) (i j : Nat)
    (h : i < j) :
    storeIdAt s i = pyStr (s.pet_type_counter + i + 1) ∧
    storeIdAt s j = pyStr (s.pet_type_counter + j + 1) ∧
    s.pet_type_counter + i + 1 < s.pet_type_counter + j + 1 ∧
    storeIdAt s i ≠ storeIdAt s j ∧
    orderIdAt o i = pyStr (o.purchase_counter + i + 1) ∧
    orderIdAt o j = pyStr (o.purchase_counter + j + 1) ∧
    o.purchase_counter + i + 1 < o.purchase_counter + j + 1 ∧
    orderIdAt o i ≠ orderIdAt o j := by
  have hs : ∀ n, storeIdAt s n = pyStr (s.pet_type_counter + n + 1) := by
    intro n
    show (get_next_pet_type_id (storeStateAfter s n)).2 = _
    simp [get_next_pet_type_id, storeStateAfter_counter]
  have ho : ∀ n, orderIdAt o n = pyStr (o.purchase_counter + n + 1) := by
    intro n
    show (get_next_purchase_id (orderStateAfter o n)).2 = _
    simp [get_next_purchase_id, orderStateAfter_counter]
  refine ⟨hs i, hs j, by omega, ?_, ho i, ho j, by omega, ?_⟩
  · rw [hs i, hs j]
    intro heq
    have := pyStr_inj heq
    omega
  · rw [ho i, ho j]
    intro heq
    have := pyStr_inj heq
    omega

/-- C5 witness: in a store whose counter reads 1 and a fresh order
service, calls 0 and 1 return "2" and "3", respectively "1" and "2",
all distinct. -/
theorem C5_id_generators_monotonic_witness :
    storeIdAt caseRenameState 0 = pyStr (caseRenameState.pet_type_counter + 0 + 1) ∧
    storeIdAt caseRenameState 1 = pyStr (caseRenameState.pet_type_counter + 1 + 1) ∧
    caseRenameState.pet_type_counter + 0 + 1 < caseRenameState.pet_type_counter + 1 + 1 ∧
    storeIdAt caseRenameState 0 ≠ storeIdAt caseRenameState 1 ∧
    orderIdAt emptyOrderState 0 = pyStr (emptyOrderState.purchase_counter + 0 + 1) ∧
    orderIdAt emptyOrderState 1 = pyStr (emptyOrderState.purchase_counter + 1 + 1) ∧
    emptyOrderState.purchase_counter + 0 + 1 < emptyOrderState.purchase_counter + 1 + 1 ∧
    orderIdAt emptyOrderState 0 ≠ orderIdAt emptyOrderState 1 :=
  C5_id_generators_monotonic caseRenameState emptyOrderState 0 1 (by decide)

/-- Membership in a lower-cased list is the `any` of lower-cased
equality. -/
theorem contains_map_pyLower (l : List String) (v : String) :
    (l.map pyLower).contains v = l.any (fun a => pyLower a == v) := by
  induction l with
  | nil => rfl
  | cons x xs ih =>
    simp only [List.map_cons, List.contains_cons, List.any_cons, ih]
    congr 1
    simp [eq_comm]

/-- The handler's per-parameter check agrees with the claim's matching
semantics on every recognized key. -/
theorem ptypeMatchesParam_eq_spec (t : PetType) (key val : String)
    (hk : key ∈ (["id", "type", "family", "genus", "lifespan", "hasAttribute"] :
      List String)) :
    ptypeMatchesParam t key val = specParamMatch t key val := by
  simp at hk
  rcases hk with h | h | h | h | h | h
  · subst h; rfl
  · subst h; rfl
  · subst h; rfl
  · subst h; rfl
  · subst h; rfl
  · subst h; exact contains_map_pyLower t.attributes (pyLower val)

/-- C10: on a `GET /pet-types` request whose query parameters all use
the recognized keys, the answer is 200, leaves the state untouched, and
its body holds exactly the (cleaned) pet types matching all given
parameters under the claim's semantics: `id`, `type`, `family`, `genus`
case-insensitive, `hasAttribute` case-insensitive membership, `lifespan`
exact string equality of the stored value (never matching null). -/
theorem C10_get_pet_types_filter (s : StoreState) (params : List (String × String))
    (hk : ∀ kv ∈ params, kv.1 ∈ (["id", "type", "family", "genus", "lifespan",
      "hasAttribute"] : List String)) :
    (get_pet_types s params).status = 200 ∧
    (get_pet_types s params).state = s ∧
    (get_pet_types s params).body =
      some ((s.pet_types.filter
        (fun t => params.all (fun kv => specParamMatch t kv.1 kv.2))).map clean_pet_type) := by
  have hall : ∀ t : PetType,
      params.all (fun kv => ptypeMatchesParam t kv.1 kv.2) =
      params.all (fun kv => specParamMatch t kv.1 kv.2) := by
    intro t
    induction params with
    | nil => rfl
    | cons kv rest ih =>
      simp only [List.all_cons]
      rw [ptypeMatchesParam_eq_spec t kv.1 kv.2 (hk kv (by simp)),
        ih (fun x hx => hk x (by simp [hx]))]
  by_cases hp : params = []
  · subst hp
    refine ⟨rfl, rfl, ?_⟩
    simp [get_pet_types]
  · refine ⟨?_, ?_, ?_⟩ <;>
      simp only [get_pet_types, if_neg hp]
    rw [List.filter_congr (fun t _ => hall t)]

/-- C10 witness: filtering `twoTypesState` by type "DOG" (uppercase)
yields exactly the cleaned dog pet type. -/
theorem C10_get_pet_types_filter_witness :
    (get_pet_types twoTypesState [("type", "DOG")]).status = 200 ∧
    (get_pet_types twoTypesState [("type", "DOG")]).state = twoTypesState ∧
    (get_pet_types twoTypesState [("type", "DOG")]).body =
      some ((twoTypesState.pet_types.filter
        (fun t => [("type", "DOG")].all (fun kv => specParamMatch t kv.1 kv.2))).map
          clean_pet_type) :=
  C10_get_pet_types_filter twoTypesState [("type", "DOG")] (by decide)

/-- `updateFirst` rewrites exactly the first match. -/
theorem updateFirst_append_of_not {α : Type} {p : α → Bool} {f : α → α}
    {l₁ l₂ : List α} {a : α} (h₁ : ∀ x ∈ l₁, p x = false) (ha : p a = true) :
    updateFirst p f (l₁ ++ a :: l₂) = l₁ ++ f a :: l₂ := by
  induction l₁ with
  | nil => simp [updateFirst, ha]
  | cons x xs ih =>
    have hx : p x = false := h₁ x (by simp)
    simp only [List.cons_append, updateFirst, hx]
    simp [ih (fun y hy => h₁ y (by simp [hy]))]

/-- C9: with a pet type `t` stored under `tid` and a pet document `doc`
of that type being the one `find_one` locates under its own lowercase
name, every request whose name path segment `q` equals `doc.name` up to
letter case operates on that very document: GET answers 200 with the
cleaned document; DELETE answers 204, erases that document (the first
match of its lowercase name) and pulls its stored name from the type's
list; PUT with a valid JSON body replaces that document with the
updated fields and answers 200.  All the right-hand sides mention only
`doc.name`, not `q`: the lookup goes through the stored lowercase name
field. -/
theorem C9_case_insensitive_pet_lookup (s : StoreState) (tid q : String)
    (t : PetType) (doc : Pet)
    (ht : findPetType s tid = some t)
    (hfind : findPetDoc s tid (pyLower doc.name) = some doc)
    (hq : pyLower q = pyLower doc.name) :
    get_pet_by_name s tid q = ⟨200, some (clean_pet doc), s⟩ ∧
    (delete_pet s tid q).status = 204 ∧
    (delete_pet s tid q).state.pets =
      s.pets.eraseP (fun p => p.pet_type_id == tid && p.name_lower == pyLower doc.name) ∧
    (delete_pet s tid q).state.pet_types =
      updateFirst (fun u => u.id == tid)
        (fun u => { u with pets := u.pets.filter (fun n => n ≠ doc.name) }) s.pet_types ∧
    (∀ dl d new_name, d.name = some new_name →
      (update_pet dl s tid q (some "application/json") (some d)).status = 200 ∧
      (update_pet dl s tid q (some "application/json") (some d)).state.pets =
        updateFirst (fun p => p.pet_type_id == tid && p.name_lower == pyLower doc.name)
          (fun _ => update_fields_of dl tid doc d new_name) s.pets) := by
  refine ⟨?_, ?_, ?_, ?_, ?_⟩
  · simp only [get_pet_by_name, ht, hq, hfind]
  · simp only [delete_pet, ht, hq, hfind]
  · simp only [delete_pet, ht, hq, hfind]
  · simp only [delete_pet, ht, hq, hfind]
  · intro dl d new_name hn
    have hbody : (some "application/json" : Option String) ≠ some "application/json" ↔ False := by
      simp
    obtain ⟨pre, post, hsplit, hpre, hpm⟩ :
        ∃ as bs, s.pets = as ++ doc :: bs ∧ (∀ x ∈ as,
          (x.pet_type_id == tid && x.name_lower == pyLower doc.name) = false) ∧
          (doc.pet_type_id == tid && doc.name_lower == pyLower doc.name) = true := by
      have h := List.find?_eq_some.mp hfind
      obtain ⟨hp, as, bs, hx, hall⟩ := h
      refine ⟨as, bs, hx, fun x hx2 => ?_, hp⟩
      have h3 := hall x hx2
      revert h3
      cases (x.pet_type_id == tid && x.name_lower == pyLower doc.name) <;> simp
    have hupd : updateFirst
        (fun p => p.pet_type_id == tid && p.name_lower == pyLower doc.name)
        (fun _ => update_fields_of dl tid doc d new_name) s.pets =
        pre ++ update_fields_of dl tid doc d new_name :: post := by
      rw [hsplit]
      exact updateFirst_append_of_not hpre hpm
    have hmem : update_fields_of dl tid doc d new_name ∈
        updateFirst (fun p => p.pet_type_id == tid && p.name_lower == pyLower doc.name)
          (fun _ => update_fields_of dl tid doc d new_name) s.pets := by
      rw [hupd]
      simp
    have hfound : ∃ up, (updateFirst
        (fun p => p.pet_type_id == tid && p.name_lower == pyLower doc.name)
        (fun _ => update_fields_of dl tid doc d new_name) s.pets).find?
          (fun p => p.pet_type_id == tid && p.name_lower == pyLower new_name) = some up := by
      have hs : (List.find?
          (fun p => p.pet_type_id == tid && p.name_lower == pyLower new_name)
          (updateFirst (fun p => p.pet_type_id == tid && p.name_lower == pyLower doc.name)
            (fun _ => update_fields_of dl tid doc d new_name) s.pets)).isSome := by
        apply List.find?_isSome.mpr
        exact ⟨update_fields_of dl tid doc d new_name, hmem, by simp [update_fields_of]⟩
      exact Option.isSome_iff_exists.mp hs
    obtain ⟨up, hup⟩ := hfound
    constructor
    · simp only [update_pet, ht, hq, hfind, hn, hup]
      simp
    · simp only [update_pet, ht, hq, hfind, hn, hup]
      simp

/-- C9 witness: in `dupRenameState` the pet stored as "Rex" is hit by
the path segment "rEX": GET returns it, DELETE erases it, PUT on that
segment rewrites that document. -/
theorem C9_case_insensitive_pet_lookup_witness :
    get_pet_by_name dupRenameState "1" "rEX" =
      ⟨200, some (clean_pet ⟨"1", "Rex", "rex", "NA", "NA", none⟩), dupRenameState⟩ ∧
    (delete_pet dupRenameState "1" "rEX").status = 204 ∧
    (delete_pet dupRenameState "1" "rEX").state.pets =
      dupRenameState.pets.eraseP
        (fun p => p.pet_type_id == "1" &&
          p.name_lower == pyLower (Pet.name ⟨"1", "Rex", "rex", "NA", "NA", none⟩)) ∧
    (delete_pet dupRenameState "1" "rEX").state.pet_types =
      updateFirst (fun u => u.id == "1")
        (fun u => { u with
          pets := u.pets.filter (fun n => n ≠ Pet.name ⟨"1", "Rex", "rex", "NA", "NA", none⟩) })
        dupRenameState.pet_types ∧
    ((update_pet dlNone dupRenameState "1" "rEX" (some "application/json")
        (some ⟨some "Max", none, none⟩)).status = 200 ∧
      (update_pet dlNone dupRenameState "1" "rEX" (some "application/json")
        (some ⟨some "Max", none, none⟩)).state.pets =
      updateFirst (fun p => p.pet_type_id == "1" &&
          p.name_lower == pyLower (Pet.name ⟨"1", "Rex", "rex", "NA", "NA", none⟩))
        (fun _ => update_fields_of dlNone "1" ⟨"1", "Rex", "rex", "NA", "NA", none⟩
          ⟨some "Max", none, none⟩ "Max") dupRenameState.pets) := by
  obtain ⟨h1, h2, h3, h4, h5⟩ := C9_case_insensitive_pet_lookup dupRenameState "1" "rEX"
    ⟨"1", "dog", "Canidae", "Canis", [], none, ["Rex", "Bella"]⟩
    ⟨"1", "Rex", "rex", "NA", "NA", none⟩ (by decide) (by decide) (by decide)
  exact ⟨h1, h2, h3, h4, h5 dlNone ⟨some "Max", none, none⟩ "Max" rfl⟩

/-- C6 counterexample: with the correct owner header but a `store`
query parameter that is not an integer, `get_transactions` raises an
uncaught `ValueError` inside `int(val)` and the framework answers 500 —
neither the 200 the claim promises for an authorized request nor a
401. -/
theorem C6_store_param_500_counterexample :
    (get_transactions twoTxState (some OWNER_PASSWORD) [("store", "abc")]).1 = 500 ∧
    (get_transactions twoTxState (some OWNER_PASSWORD) [("store", "abc")]).1 ≠ 200 ∧
    (get_transactions twoTxState (some OWNER_PASSWORD) [("store", "abc")]).1 ≠ 401 := by
  decide

/-- When every `store` parameter value parses as an integer, the query
build succeeds. -/
theorem buildQueryGo_isSome (params : List (String × String))
    (h : ∀ kv ∈ params, kv.1 = "store" → (pyInt kv.2).isSome = true) :
    ∀ q0 : TxQuery, ∃ q, buildQueryGo q0 params = some q := by
  induction params with
  | nil => intro q0; exact ⟨q0, rfl⟩
  | cons kv rest ih =>
    intro q0
    have hrest : ∀ kv2 ∈ rest, kv2.1 = "store" → (pyInt kv2.2).isSome = true :=
      fun kv2 h2 => h kv2 (by simp [h2])
    by_cases hs : kv.1 = "store"
    · have hint : (pyInt kv.2).isSome = true := h kv (by simp) hs
      obtain ⟨n, hn⟩ := Option.isSome_iff_exists.mp hint
      simpa [buildQueryGo, hs, hn] using ih hrest { q0 with store := some n }
    · by_cases h1 : kv.1 = "purchaser"
      · simpa [buildQueryGo, hs, h1] using ih hrest { q0 with purchaser := some kv.2 }
      · by_cases h2 : kv.1 = "pet-type"
        · simpa [buildQueryGo, hs, h1, h2] using ih hrest { q0 with pet_type_ci := some kv.2 }
        · by_cases h3 : kv.1 = "purchase-id"
          · simpa [buildQueryGo, hs, h1, h2, h3] using
              ih hrest { q0 with purchase_id := some kv.2 }
          · simpa [buildQueryGo, hs, h1, h2, h3] using ih hrest q0

/-- C6 (amended): `GET /transactions` answers 401 exactly when the
`OwnerPC` header is absent or differs from the owner token; with the
correct header, every `store` parameter parsing as an integer, and
every `pet-type` parameter free of regex metacharacters (so that the
unescaped anchored `$regex` the handler builds means case-insensitive
equality), it answers 200 with exactly the stored transactions matching
the built query. -/
theorem C6_transactions_auth_contract (o : OrderState) (hdr : Option String)
    (params : List (String × String)) :
    ((get_transactions o hdr params).1 = 401 ↔ hdr ≠ some OWNER_PASSWORD) ∧
    (hdr = some OWNER_PASSWORD →
      (∀ kv ∈ params, kv.1 = "store" → (pyInt kv.2).isSome = true) →
      (∀ kv ∈ params, kv.1 = "pet-type" → regexLiteral kv.2 = true) →
      ∃ q, buildQuery params = some q ∧
        get_transactions o hdr params = (200, some (o.transactions.filter (txMatches q)))) := by
  constructor
  · by_cases hh : hdr = some OWNER_PASSWORD
    · subst hh
      simp only [get_transactions, ne_eq, not_true_eq_false, if_false]
      constructor
      · intro habs
        cases hq : buildQuery params with
        | none => rw [hq] at habs; simp at habs
        | some q => rw [hq] at habs; simp at habs
      · intro hfalse
        exact hfalse.elim
    · simp [get_transactions, hh]
  · intro hh hp _hlit
    subst hh
    obtain ⟨q, hq⟩ := buildQueryGo_isSome params hp ⟨none, none, none, none⟩
    refine ⟨q, hq, ?_⟩
    simp [get_transactions, buildQuery] at hq ⊢
    rw [hq]

/-- C6 witness: on `twoTxState`, an authorized request filtered to
store 2 answers 200 with the matching transaction; the 401 equivalence
is instantiated there as well. -/
theorem C6_transactions_auth_contract_witness :
    ((get_transactions twoTxState (some OWNER_PASSWORD) [("store", "2")]).1 = 401 ↔
      (some OWNER_PASSWORD : Option String) ≠ some OWNER_PASSWORD) ∧
    ((some OWNER_PASSWORD : Option String) = some OWNER_PASSWORD →
      (∀ kv ∈ ([("store", "2")] : List (String × String)),
        kv.1 = "store" → (pyInt kv.2).isSome = true) →
      (∀ kv ∈ ([("store", "2")] : List (String × String)),
        kv.1 = "pet-type" → regexLiteral kv.2 = true) →
      ∃ q, buildQuery [("store", "2")] = some q ∧
        get_transactions twoTxState (some OWNER_PASSWORD) [("store", "2")] =
          (200, some (twoTxState.transactions.filter (txMatches q)))) :=
  C6_transactions_auth_contract twoTxState (some OWNER_PASSWORD) [("store", "2")]

/-- Every run of `create_purchase` either answers 201 or leaves the
order state exactly as it was. -/
theorem create_purchase_non201_state (env : OrderEnv) (o : OrderState)
    (ct : Option String) (data : Option PurchaseData) (ix : Nat) :
    (create_purchase env o ct data ix).status = 201 ∨
    (create_purchase env o ct data ix).state = o := by
  unfold create_purchase
  repeat' first | (left; rfl) | (right; rfl) | split | dsimp only

/-- C8: whenever `POST /purchases` answers anything other than 201
(wrong media type, validation failure, no available pet, or a failed
deletion at the store), the order service's state is untouched: no
transaction is inserted and no purchase id is consumed. -/
theorem C8_non201_leaves_state (env : OrderEnv) (o : OrderState) (ct : Option String)
    (data : Option PurchaseData) (ix : Nat)
    (h : (create_purchase env o ct data ix).status ≠ 201) :
    (create_purchase env o ct data ix).state = o ∧
    (create_purchase env o ct data ix).state.transactions = o.transactions ∧
    (create_purchase env o ct data ix).state.purchase_counter = o.purchase_counter := by
  rcases create_purchase_non201_state env o ct data ix with h201 | hst
  · exact absurd h201 h
  · exact ⟨hst, by rw [hst], by rw [hst]⟩

/-- C8 witness: with both stores unreachable a valid purchase request
is answered 400 and the (empty) order state is untouched. -/
theorem C8_non201_leaves_state_witness :
    (create_purchase envNone emptyOrderState (some "application/json")
      (some reqNoStore) 0).state = emptyOrderState ∧
    (create_purchase envNone emptyOrderState (some "application/json")
      (some reqNoStore) 0).state.transactions = emptyOrderState.transactions ∧
    (create_purchase envNone emptyOrderState (some "application/json")
      (some reqNoStore) 0).state.purchase_counter = emptyOrderState.purchase_counter :=
  C8_non201_leaves_state envNone emptyOrderState (some "application/json")
    (some reqNoStore) 0 (by decide)


/-- `find_pet_type_id` always logs exactly one pet-types query. -/
theorem find_pet_type_id_effects (env : OrderEnv) (sn : Nat) (p : String) :
    find_pet_type_id env sn p = ((find_pet_type_id env sn p).1, [Effect.queryPetTypes sn]) := by
  unfold find_pet_type_id
  cases h : env.petTypesResp sn with
  | none => rfl
  | some pts =>
    dsimp only
    cases hf : pts.find? (fun pt => pyLower pt.type == pyLower p) with
    | none => rfl
    | some pt => rfl

/-- `get_pets_of_type` always logs exactly one pets query. -/
theorem get_pets_of_type_effects (env : OrderEnv) (sn : Nat) (ptid : String) :
    get_pets_of_type env sn ptid =
      ((get_pets_of_type env sn ptid).1, [Effect.queryPets sn ptid]) := by
  unfold get_pets_of_type
  cases h : env.petsResp sn ptid with
  | none => rfl
  | some ps => rfl

/-- Invariants of the store-scanning loop when no pet name is given:
it never returns early, it queries the pet-types listing of each
scanned store exactly once and in order, every outbound call goes to a
scanned store, it performs no deletion and no insert, and every
accumulated available pet comes from the accumulator or from a scanned
store. -/
theorem find_loop_no_petname (env : OrderEnv) (ptn : String) :
    ∀ (stores : List Nat) (acc : List (Nat × String × String)),
      (find_available_pet_loop env ptn none stores acc).1 = none ∧
      (find_available_pet_loop env ptn none stores acc).2.2.filterMap
        Effect.queryStore? = stores ∧
      (∀ e ∈ (find_available_pet_loop env ptn none stores acc).2.2, ∀ n,
        Effect.httpStore? e = some n → n ∈ stores) ∧
      (find_available_pet_loop env ptn none stores acc).2.2.countP Effect.isDelete = 0 ∧
      (find_available_pet_loop env ptn none stores acc).2.2.countP Effect.isInsert = 0 ∧
      (∀ x ∈ (find_available_pet_loop env ptn none stores acc).2.1,
        x ∈ acc ∨ x.1 ∈ stores) := by
  intro stores
  induction stores with
  | nil =>
    intro acc
    refine ⟨rfl, rfl, ?_, rfl, rfl, ?_⟩
    · intro e he
      simp [find_available_pet_loop] at he
    · intro x hx
      exact Or.inl hx
  | cons sn rest ih =>
    intro acc
    unfold find_available_pet_loop
    rw [find_pet_type_id_effects env sn ptn]
    cases h1 : (find_pet_type_id env sn ptn).1 with
    | none =>
      dsimp only
      rcases hres : find_available_pet_loop env ptn none rest acc with ⟨r, a, e⟩
      dsimp only
      obtain ⟨ihr, ihq, ihh, ihd, ihi, iha⟩ := ih acc
      rw [hres] at ihr ihq ihh ihd ihi iha
      dsimp at ihr ihq ihh ihd ihi iha
      refine ⟨ihr, ?_, ?_, ?_, ?_, ?_⟩
      · simp [Effect.queryStore?, ihq]
      · intro e2 he2 n hn
        rcases List.mem_cons.mp (by simpa using he2) with he3 | he3
        · subst he3
          simp [Effect.httpStore?] at hn
          simp [hn]
        · have := ihh e2 he3 n hn
          simp [this]
      · simp [Effect.isDelete, ihd]
      · simp [Effect.isInsert, ihi]
      · intro x hx
        rcases iha x hx with hl | hr
        · exact Or.inl hl
        · exact Or.inr (by simp [hr])
    | some ptid =>
      dsimp only
      by_cases hempty : ptid = ""
      · rw [if_pos hempty]
        rcases hres : find_available_pet_loop env ptn none rest acc with ⟨r, a, e⟩
        dsimp only
        obtain ⟨ihr, ihq, ihh, ihd, ihi, iha⟩ := ih acc
        rw [hres] at ihr ihq ihh ihd ihi iha
        dsimp at ihr ihq ihh ihd ihi iha
        refine ⟨ihr, ?_, ?_, ?_, ?_, ?_⟩
        · simp [Effect.queryStore?, ihq]
        · intro e2 he2 n hn
          rcases List.mem_cons.mp (by simpa using he2) with he3 | he3
          · subst he3
            simp [Effect.httpStore?] at hn
            simp [hn]
          · have := ihh e2 he3 n hn
            simp [this]
        · simp [Effect.isDelete, ihd]
        · simp [Effect.isInsert, ihi]
        · intro x hx
          rcases iha x hx with hl | hr
          · exact Or.inl hl
          · exact Or.inr (by simp [hr])
      · rw [if_neg hempty, get_pets_of_type_effects env sn ptid]
        dsimp only
        by_cases hpets : (get_pets_of_type env sn ptid).1 = []
        · rw [if_pos hpets]
          rcases hres : find_available_pet_loop env ptn none rest acc with ⟨r, a, e⟩
          dsimp only
          obtain ⟨ihr, ihq, ihh, ihd, ihi, iha⟩ := ih acc
          rw [hres] at ihr ihq ihh ihd ihi iha
          dsimp at ihr ihq ihh ihd ihi iha
          refine ⟨ihr, ?_, ?_, ?_, ?_, ?_⟩
          · simp [Effect.queryStore?, ihq]
          · intro e2 he2 n hn
            rcases (by simpa using he2 :
                e2 = Effect.queryPetTypes sn ∨ e2 = Effect.queryPets sn ptid ∨ e2 ∈ e)
              with he3 | he3 | he3
            · subst he3
              simp [Effect.httpStore?] at hn
              simp [hn]
            · subst he3
              simp [Effect.httpStore?] at hn
              simp [hn]
            · have := ihh e2 he3 n hn
              simp [this]
          · simp [Effect.isDelete, ihd]
          · simp [Effect.isInsert, ihi]
          · intro x hx
            rcases iha x hx with hl | hr
            · exact Or.inl hl
            · exact Or.inr (by simp [hr])
        · rw [if_neg hpets]
          dsimp only
          rcases hres : find_available_pet_loop env ptn none rest
              (acc ++ (get_pets_of_type env sn ptid).1.map
                (fun p => (sn, ptid, p.name))) with ⟨r, a, e⟩
          dsimp only
          obtain ⟨ihr, ihq, ihh, ihd, ihi, iha⟩ := ih
            (acc ++ (get_pets_of_type env sn ptid).1.map (fun p => (sn, ptid, p.name)))
          rw [hres] at ihr ihq ihh ihd ihi iha
          dsimp at ihr ihq ihh ihd ihi iha
          refine ⟨ihr, ?_, ?_, ?_, ?_, ?_⟩
          · simp [Effect.queryStore?, ihq]
          · intro e2 he2 n hn
            rcases (by simpa using he2 :
                e2 = Effect.queryPetTypes sn ∨ e2 = Effect.queryPets sn ptid ∨ e2 ∈ e)
              with he3 | he3 | he3
            · subst he3
              simp [Effect.httpStore?] at hn
              simp [hn]
            · subst he3
              simp [Effect.httpStore?] at hn
              simp [hn]
            · have := ihh e2 he3 n hn
              simp [this]
          · simp [Effect.isDelete, ihd]
          · simp [Effect.isInsert, ihi]
          · intro x hx
            rcases iha x hx with hl | hr
            · rcases List.mem_append.mp hl with hl2 | hl2
              · exact Or.inl hl2
              · right
                obtain ⟨p, hp, hpx⟩ := List.mem_map.mp hl2
                rw [Eq.symm hpx]
                simp
            · exact Or.inr (by simp [hr])

/-- Falling back to the head, `getD` always yields a list element. -/
theorem getD_head_mem {α : Type} (x : α) (xs : List α) (i : Nat) :
    (x :: xs).getD i x ∈ x :: xs := by
  rw [List.getD_eq_getElem?_getD]
  cases h : (x :: xs)[i]? with
  | none => simp
  | some a =>
    simp only [Option.getD_some]
    exact List.getElem?_mem h

/-- Effects and result of `find_available_pet` when neither a store nor
a pet name is requested: both stores are queried, in order 1 then 2,
with no deletion or insert effect, and any returned pet lives in store
1 or store 2. -/
theorem find_available_pet_no_store (env : OrderEnv) (ptn : String) (ix : Nat) :
    (find_available_pet env ptn none none ix).2.filterMap Effect.queryStore? = [1, 2] ∧
    (∀ e ∈ (find_available_pet env ptn none none ix).2, ∀ n,
      Effect.httpStore? e = some n → n = 1 ∨ n = 2) ∧
    (find_available_pet env ptn none none ix).2.countP Effect.isDelete = 0 ∧
    (find_available_pet env ptn none none ix).2.countP Effect.isInsert = 0 ∧
    (∀ res, (find_available_pet env ptn none none ix).1 = some res →
      res.1 = 1 ∨ res.1 = 2) := by
  unfold find_available_pet
  dsimp only
  rcases hloop : find_available_pet_loop env ptn none [1, 2] [] with ⟨early, avail, effs⟩
  obtain ⟨ihr, ihq, ihh, ihd, ihi, iha⟩ := find_loop_no_petname env ptn [1, 2] []
  rw [hloop] at ihr ihq ihh ihd ihi iha
  dsimp at ihr ihq ihh ihd ihi iha
  subst ihr
  dsimp only
  have hmem2 : ∀ n : Nat, n ∈ ([1, 2] : List Nat) → n = 1 ∨ n = 2 := by
    intro n hn
    simpa using hn
  cases avail with
  | nil =>
    dsimp only
    refine ⟨ihq, ?_, ihd, ihi, ?_⟩
    · intro e he n hn
      exact hmem2 n (ihh e he n hn)
    · intro res hres
      exact absurd hres (by simp)
  | cons x xs =>
    dsimp only
    refine ⟨ihq, ?_, ihd, ihi, ?_⟩
    · intro e he n hn
      exact hmem2 n (ihh e he n hn)
    · intro res hres
      have hres2 : (x :: xs).getD (ix % (x :: xs).length) x = res :=
        Option.some.inj hres
      have hmem : res ∈ x :: xs := by
        rw [Eq.symm hres2]
        exact getD_head_mem x xs (ix % (x :: xs).length)
      rcases iha res hmem with hl | hr
      · exact absurd hl (List.not_mem_nil res)
      · exact hmem2 res.1 hr

/-- C3: on a `POST /purchases` request whose body has no `store` field,
the order service queries only stores 1 and 2, querying the pet-types
listing of store 1 and then of store 2 in that order (or of neither
when validation fails first); and whenever the response is 201 it has
issued exactly one outbound deletion call, recorded exactly one new
transaction, and appended exactly one document to the transactions
collection. -/
theorem C3_purchase_without_store (env : OrderEnv) (o : OrderState) (ct : Option String)
    (d : PurchaseData) (ix : Nat) (hstore : d.store = none) :
    ((create_purchase env o ct (some d) ix).effects.filterMap Effect.queryStore? = [] ∨
     (create_purchase env o ct (some d) ix).effects.filterMap Effect.queryStore? = [1, 2]) ∧
    (∀ e ∈ (create_purchase env o ct (some d) ix).effects, ∀ n,
      Effect.httpStore? e = some n → n = 1 ∨ n = 2) ∧
    ((create_purchase env o ct (some d) ix).status = 201 →
      (create_purchase env o ct (some d) ix).effects.countP Effect.isDelete = 1 ∧
      (create_purchase env o ct (some d) ix).effects.countP Effect.isInsert = 1 ∧
      ∃ tx, (create_purchase env o ct (some d) ix).state.transactions =
        o.transactions ++ [tx]) := by
  unfold create_purchase
  by_cases hct : ct ≠ some "application/json"
  · rw [if_pos hct]
    exact ⟨Or.inl rfl, fun e he => ((List.not_mem_nil e) he).elim,
      fun h => by simp at h⟩
  · rw [if_neg hct]
    dsimp only
    cases hp : d.purchaser with
    | none =>
      cases hpt : d.pet_type with
      | none =>
        exact ⟨Or.inl rfl, fun e he => ((List.not_mem_nil e) he).elim,
          fun h => by simp at h⟩
      | some pt =>
        exact ⟨Or.inl rfl, fun e he => ((List.not_mem_nil e) he).elim,
          fun h => by simp at h⟩
    | some purchaser =>
      cases hpt : d.pet_type with
      | none =>
        exact ⟨Or.inl rfl, fun e he => ((List.not_mem_nil e) he).elim,
          fun h => by simp at h⟩
      | some pet_type =>
        dsimp only
        by_cases hex : d.extra = true
        · rw [if_pos hex]
          exact ⟨Or.inl rfl, fun e he => ((List.not_mem_nil e) he).elim,
            fun h => by simp at h⟩
        · rw [if_neg hex]
          have hsv : ¬(d.store ≠ none ∧ d.store ≠ some 1 ∧ d.store ≠ some 2) := by
            intro hcon
            exact hcon.1 hstore
          rw [if_neg hsv]
          by_cases hpn : d.pet_name = none
          · have hpv : ¬(d.pet_name ≠ none ∧ d.store = none) := by
              intro hcon
              exact hcon.1 hpn
            rw [if_neg hpv, hstore, hpn]
            dsimp only [Option.map_none']
            rcases hfa : find_available_pet env pet_type none none ix with ⟨res, effs⟩
            obtain ⟨ihq, ihh, ihd, ihi, ires⟩ := find_available_pet_no_store env pet_type ix
            rw [hfa] at ihq ihh ihd ihi ires
            dsimp at ihq ihh ihd ihi ires
            cases res with
            | none =>
              dsimp only
              exact ⟨Or.inr ihq, ihh, fun h => by simp at h⟩
            | some triple =>
              rcases triple with ⟨cs, ptid, name⟩
              have hcs : cs = 1 ∨ cs = 2 := ires (cs, ptid, name) rfl
              dsimp only [delete_pet_remote]
              by_cases hok : env.deleteOk cs ptid name = true
              · rw [hok]
                simp only [Bool.not_true]
                rw [if_neg (by simp : ¬(false = true))]
                refine ⟨Or.inr (by simpa [Effect.queryStore?] using ihq), ?_, ?_⟩
                · intro e he n hn
                  rw [List.mem_append] at he
                  rcases he with he | he
                  · rw [List.mem_append] at he
                    rcases he with he | he
                    · exact ihh e he n hn
                    · have h1 := List.mem_singleton.mp he
                      subst h1
                      simp only [Effect.httpStore?, Option.some.injEq] at hn
                      rw [Eq.symm hn]
                      exact hcs
                  · rcases List.mem_cons.mp he with h1 | h1
                    · subst h1
                      simp [Effect.httpStore?] at hn
                    · have h2 := List.mem_singleton.mp h1
                      subst h2
                      simp [Effect.httpStore?] at hn
                · intro h201
                  refine ⟨?_, ?_, ?_⟩
                  · simp [List.countP_append, List.countP_cons, Effect.isDelete, ihd]
                  · simp [List.countP_append, List.countP_cons, Effect.isInsert, ihi]
                  · exact ⟨_, rfl⟩
              · rw [Bool.not_eq_true] at hok
                rw [hok]
                simp only [Bool.not_false]
                rw [if_pos trivial]
                refine ⟨Or.inr (by simpa [Effect.queryStore?] using ihq), ?_, ?_⟩
                · intro e he n hn
                  rcases (by simpa using he :
                      e ∈ effs ∨ e = Effect.deletePetCall cs ptid name) with h1 | h1
                  · exact ihh e h1 n hn
                  · subst h1
                    simp only [Effect.httpStore?, Option.some.injEq] at hn
                    rw [Eq.symm hn]
                    exact hcs
                · intro h
                  simp at h
          · have hpv : d.pet_name ≠ none ∧ d.store = none := ⟨hpn, hstore⟩
            rw [if_pos hpv]
            exact ⟨Or.inl rfl, fun e he => ((List.not_mem_nil e) he).elim,
              fun h => by simp at h⟩

/-- C3 witness: with both stores unreachable, a valid storeless request
queries stores 1 then 2 and is answered without any deletion or
insert. -/
theorem C3_purchase_without_store_witness :
    ((create_purchase envNone emptyOrderState (some "application/json")
        (some reqNoStore) 0).effects.filterMap Effect.queryStore? = [] ∨
     (create_purchase envNone emptyOrderState (some "application/json")
        (some reqNoStore) 0).effects.filterMap Effect.queryStore? = [1, 2]) ∧
    (∀ e ∈ (create_purchase envNone emptyOrderState (some "application/json")
        (some reqNoStore) 0).effects, ∀ n,
      Effect.httpStore? e = some n → n = 1 ∨ n = 2) ∧
    ((create_purchase envNone emptyOrderState (some "application/json")
        (some reqNoStore) 0).status = 201 →
      (create_purchase envNone emptyOrderState (some "application/json")
        (some reqNoStore) 0).effects.countP Effect.isDelete = 1 ∧
      (create_purchase envNone emptyOrderState (some "application/json")
        (some reqNoStore) 0).effects.countP Effect.isInsert = 1 ∧
      ∃ tx, (create_purchase envNone emptyOrderState (some "application/json")
        (some reqNoStore) 0).state.transactions = emptyOrderState.transactions ++ [tx]) :=
  C3_purchase_without_store envNone emptyOrderState (some "application/json")
    reqNoStore 0 rfl
